import Mathlib

/-
Verification of the tradeanim animation/rendering core.

Shallow embedding of:
  - src/tradeanim/scene.py   (Camera, Animation lifecycle, Scene scheduling)
  - src/tradeanim/animations.py (PanCamera hooks)
  - src/tradeanim/elements.py (LineElement progressive reveal)
  - src/tradeanim/renderer.py (frame loop, chromatic aberration stage)
  - src/tradeanim/easing.py   (easing library over the reals)

Machine floats are modelled by exact rationals (scheduling, progress) and
by the reals (easing library, which uses transcendental functions).
Python object identity for Animation instances is modelled by a heap of
Animation records addressed by natural-number ids, since Scene.play
mutates the passed objects in place and stores references to them.
-/

/-- Python built-in int() applied to a rational: truncation toward zero. -/
def pyInt (x : ℚ) : ℤ :=
  if 0 ≤ x then ⌊x⌋ else ⌈x⌉

/-- Python built-in round() to an integer: round half to even. -/
def pyRound (x : ℚ) : ℤ :=
  let n := ⌊x⌋
  let frac := x - n
  if frac < 1/2 then n
  else if 1/2 < frac then n + 1
  else if n % 2 = 0 then n else n + 1

/-- Animation base-class state (scene.py lines 49-58): public scheduling
fields `duration` and `start_time`, private lifecycle flags. -/
structure Animation where
  duration : ℚ := 1
  start_time : ℚ := 0
  started : Bool := false
  finished : Bool := false
deriving Repr, DecidableEq, Inhabited

/-- The subclass hook set of an Animation together with its easing
function (scene.py lines 52-67): `on_start`, `on_update`, `on_finish`
act on the mutable world `σ` (the scene state the hooks read and write:
elements, camera, and the fields the animation object itself owns). -/
structure Hooks (σ : Type) where
  easing : ℚ → ℚ
  on_start : σ → σ
  on_update : σ → ℚ → σ
  on_finish : σ → σ

/-- Raw progress computed by Animation.update (scene.py line 72):
`min(1.0, (t - start_time) / duration) if duration > 0 else 1.0`. -/
def rawProgress (a : Animation) (t : ℚ) : ℚ :=
  if 0 < a.duration then min 1 ((t - a.start_time) / a.duration) else 1

/-- Animation.update (scene.py lines 69-83).  Returns the updated
animation flags together with the updated world. -/
def Animation.update {σ : Type} (hk : Hooks σ) (a : Animation) (s : σ) (t : ℚ) :
    Animation × σ :=
  if t < a.start_time then (a, s)
  else
    let raw := rawProgress a t
    let progress := hk.easing raw
    let sa := if a.started then (a, s) else ({ a with started := true }, hk.on_start s)
    let s1 := hk.on_update sa.2 progress
    if 1 ≤ raw ∧ sa.1.finished = false then
      ({ sa.1 with finished := true }, hk.on_finish s1)
    else (sa.1, s1)

/-- Folding Animation.update over a list of successive clock values,
as the render loop does (one call per frame). -/
def evalTimes {σ : Type} (hk : Hooks σ) : Animation → σ → List ℚ → Animation × σ
  | a, s, [] => (a, s)
  | a, s, t :: ts => evalTimes hk (Animation.update hk a s t).1 (Animation.update hk a s t).2 ts

/-- Hook-invocation counters: an instrumented world used to reason about
how often each lifecycle hook fires.  `updates` records, in order, every
progress value passed to on_update. -/
structure Hits where
  starts : ℕ := 0
  finishes : ℕ := 0
  updates : List ℚ := []
deriving Repr, DecidableEq, Inhabited

/-- Hooks that count their own invocations; the easing function is a
parameter, as in the source every animation carries its own. -/
def countHooks (f : ℚ → ℚ) : Hooks Hits where
  easing := f
  on_start := fun c => { c with starts := c.starts + 1 }
  on_update := fun c p => { c with updates := c.updates ++ [p] }
  on_finish := fun c => { c with finishes := c.finishes + 1 }

/-- Camera viewport (scene.py lines 12-23, the four public scalars). -/
structure Camera where
  view_start : ℚ := 0
  view_end : ℚ := 50
  price_min : ℚ := 0
  price_max : ℚ := 100
deriving Repr, DecidableEq, Inhabited

/-- PanCamera animation fields (animations.py lines 266-282): the target
tuple and the snapshot captured at activation. -/
structure PanCamera where
  target_start : ℚ
  target_end : ℚ
  target_pmin : Option ℚ := none
  target_pmax : Option ℚ := none
  initial : Option (ℚ × ℚ × ℚ × ℚ) := none
deriving Repr, DecidableEq

/-- World acted on by the PanCamera hooks: the animation-owned fields
plus the scene camera. -/
abbrev PanState := PanCamera × Camera

/-- PanCamera.on_start (animations.py lines 284-290): snapshot the four
camera scalars and default missing price targets to the current values. -/
def PanCamera.on_start (s : PanState) : PanState :=
  let p := s.1
  let cam := s.2
  ({ p with
      initial := some (cam.view_start, cam.view_end, cam.price_min, cam.price_max),
      target_pmin := some (p.target_pmin.getD cam.price_min),
      target_pmax := some (p.target_pmax.getD cam.price_max) }, cam)

/-- PanCamera.on_update (animations.py lines 292-298): write each camera
scalar absolutely from the activation snapshot and the target.  The
`none` branch is unreachable inside Animation.update, which always runs
on_start before the first on_update (the Python code would fail there). -/
def PanCamera.on_update (s : PanState) (progress : ℚ) : PanState :=
  match s.1.initial with
  | none => s
  | some (s0, e0, p0, p1) =>
    (s.1,
      { view_start := s0 + (s.1.target_start - s0) * progress
        view_end := e0 + (s.1.target_end - e0) * progress
        price_min := p0 + (s.1.target_pmin.getD p0 - p0) * progress
        price_max := p1 + (s.1.target_pmax.getD p1 - p1) * progress })

/-- The full hook set of a PanCamera animation; on_finish is inherited
from the base class and is a no-op. -/
def PanCamera.hooks (f : ℚ → ℚ) : Hooks PanState where
  easing := f
  on_start := PanCamera.on_start
  on_update := PanCamera.on_update
  on_finish := fun s => s

/-- Scheduling state of a Scene (scene.py lines 89-97): the heap models
Python object identity for Animation instances; `animations` holds
references into the heap, as the Python list holds object references. -/
structure Scene where
  heap : List Animation
  animations : List ℕ
  current_time : ℚ := 0
  prev_play_start : ℚ := 0
  speed_multiplier : ℚ := 1
deriving Repr, DecidableEq

/-- The loop body of Scene.play (scene.py lines 128-136), processing the
passed animation ids left to right while tracking the enumerate index
and the running `max_end`. -/
def playGo (speed : ℚ) (durOpt : Option ℚ) (delay base : ℚ) :
    ℕ → ℚ → List Animation → List ℕ → List ℕ → List Animation × List ℕ × ℚ
  | _, maxEnd, heap, sched, [] => (heap, sched, maxEnd)
  | idx, maxEnd, heap, sched, i :: rest =>
    let old := heap.getD i default
    let newDur := (durOpt.getD old.duration) / speed
    let offset := (idx : ℚ) * delay / speed
    let a1 : Animation :=
      { old with duration := newDur, start_time := base + offset }
    playGo speed durOpt delay base (idx + 1) (max maxEnd (offset + newDur))
      (heap.set i a1) (sched ++ [i]) rest

/-- Scene.play (scene.py lines 123-137). -/
def Scene.play (s : Scene) (ids : List ℕ) (durOpt : Option ℚ) (delay : ℚ) : Scene :=
  let out := playGo s.speed_multiplier durOpt delay s.current_time 0 0
    s.heap s.animations ids
  { s with
      heap := out.1
      animations := out.2.1
      current_time := s.current_time + out.2.2
      prev_play_start := s.current_time }

/-- The loop body of Scene.play_with_previous (scene.py lines 143-149). -/
def pwpGo (speed start : ℚ) (durOpt : Option ℚ) :
    List Animation → List ℕ → List ℕ → List Animation × List ℕ
  | heap, sched, [] => (heap, sched)
  | heap, sched, i :: rest =>
    let old := heap.getD i default
    let newDur := (durOpt.getD old.duration) / speed
    let a1 : Animation := { old with duration := newDur, start_time := start }
    pwpGo speed start durOpt (heap.set i a1) (sched ++ [i]) rest

/-- Scene.play_with_previous (scene.py lines 139-149): starts at the
cursor value recorded at the previous play call plus offset, and does
not advance the cursor. -/
def Scene.play_with_previous (s : Scene) (ids : List ℕ) (durOpt : Option ℚ)
    (offset : ℚ) : Scene :=
  let start := s.prev_play_start + offset / s.speed_multiplier
  let out := pwpGo s.speed_multiplier start durOpt s.heap s.animations ids
  { s with heap := out.1, animations := out.2 }

/-- Scene.wait (scene.py lines 151-152). -/
def Scene.wait (s : Scene) (duration : ℚ) : Scene :=
  { s with current_time := s.current_time + duration / s.speed_multiplier }

/-- End time of a scheduled animation: start_time + duration. -/
def Scene.animEnd (s : Scene) (i : ℕ) : ℚ :=
  (s.heap.getD i default).start_time + (s.heap.getD i default).duration

/-- Scene.total_duration (scene.py lines 99-104): the cursor when no
animations exist, else the max of the cursor and every animation end. -/
def Scene.total_duration (s : Scene) : ℚ :=
  match s.animations with
  | [] => s.current_time
  | i :: rest =>
    max s.current_time (List.foldl (fun m j => max m (s.animEnd j)) (s.animEnd i) rest)

/-- Line element fields used by progressive reveal
(elements.py lines 61-79). -/
structure LineElement where
  points_x : List ℚ := []
  points_y : List ℚ := []
  draw_progress : ℚ := 1
deriving Repr, DecidableEq

/-- LineElement.num_points (elements.py lines 73-75). -/
def LineElement.num_points (l : LineElement) : ℕ :=
  l.points_x.length

/-- LineElement.visible_points (elements.py lines 77-79):
`n = max(1, int(num_points * draw_progress))`, then the first n samples
of each coordinate list. -/
def LineElement.visible_points (l : LineElement) : List ℚ × List ℚ :=
  let n : ℤ := max 1 (pyInt ((l.num_points : ℚ) * l.draw_progress))
  (l.points_x.take n.toNat, l.points_y.take n.toNat)

/-- One 8-bit RGB pixel (channel values as naturals). -/
structure Rgb where
  r : ℕ := 0
  g : ℕ := 0
  b : ℕ := 0
deriving Repr, DecidableEq, Inhabited

/-- The chromatic aberration channel shift (renderer.py lines 159-166)
on a frame of width w, for an integer column offset `off` with
0 < off and off <= w.  The result buffer starts as zeros; the red
channel takes columns shifted left, the blue channel columns shifted
right, the green channel is copied; uncovered edge columns keep the
zero fill. -/
def chromaticShift (w off : ℕ) (src : ℕ → ℕ → Rgb) : ℕ → ℕ → Rgb :=
  fun i j =>
    { r := if j + off < w then (src i (j + off)).r else 0
      g := (src i j).g
      b := if off ≤ j ∧ j < w then (src i (j - off)).b else 0 }

/-- The full chromatic aberration stage (renderer.py lines 158-166):
the configured fractional offset is rounded and clamped to at least one
column before the shift is applied. -/
def chromaticStage (w : ℕ) (offset : ℚ) (src : ℕ → ℕ → Rgb) : ℕ → ℕ → Rgb :=
  chromaticShift w (max 1 (pyRound offset)).toNat src

/-- Number of frames the render loop produces (renderer.py line 190):
`int(scene.total_duration * fps)`. -/
def renderFrameCount (total_dur fps : ℚ) : ℤ :=
  pyInt (total_dur * fps)

/-- The clock values fed to the scene, one per frame, in loop order
(renderer.py lines 224-226): frame_idx / fps for frame_idx in
range(total_frames). -/
def frameTimes (n : ℕ) (fps : ℚ) : List ℚ :=
  (List.range n).map fun (i : ℕ) => (i : ℚ) / fps

/-- The ordered clock values of a full render of a scene. -/
def renderTimes (s : Scene) (fps : ℚ) : List ℚ :=
  frameTimes (renderFrameCount s.total_duration fps).toNat fps

/-- A raster frame: row and column counts with a pixel function. -/
structure Frame where
  rows : ℕ
  cols : ℕ
  px : ℕ → ℕ → Rgb

/-- frame.tobytes() (renderer.py line 243): row-major packed RGB, three
bytes per pixel. -/
def Frame.tobytes (f : Frame) : List ℕ :=
  (List.range f.rows).flatMap fun i =>
    (List.range f.cols).flatMap fun j =>
      [(f.px i j).r, (f.px i j).g, (f.px i j).b]

/- Easing library (easing.py), over the reals; math.sin, math.cos and
float exponentiation are modelled by their exact real counterparts.
Every function is a total map on the reals, so definedness and
finiteness on [0,1] hold by construction. -/

noncomputable def linear (t : ℝ) : ℝ := t

noncomputable def ease_in_quad (t : ℝ) : ℝ := t * t

noncomputable def ease_out_quad (t : ℝ) : ℝ := t * (2 - t)

noncomputable def ease_in_out_quad (t : ℝ) : ℝ :=
  if t < 1/2 then 2 * t * t else -1 + (4 - 2 * t) * t

noncomputable def ease_in_cubic (t : ℝ) : ℝ := t * t * t

noncomputable def ease_out_cubic (t : ℝ) : ℝ :=
  (t - 1) * (t - 1) * (t - 1) + 1

noncomputable def ease_in_out_cubic (t : ℝ) : ℝ :=
  if t < 1/2 then 4 * t * t * t else 1 + 4 * ((t - 1) * (t - 1) * (t - 1))

noncomputable def ease_in_sine (t : ℝ) : ℝ :=
  1 - Real.cos (t * Real.pi / 2)

noncomputable def ease_out_sine (t : ℝ) : ℝ :=
  Real.sin (t * Real.pi / 2)

noncomputable def ease_in_out_sine (t : ℝ) : ℝ :=
  1/2 * (1 - Real.cos (Real.pi * t))

noncomputable def ease_in_expo (t : ℝ) : ℝ :=
  if t = 0 then 0 else (2 : ℝ) ^ (10 * (t - 1))

noncomputable def ease_out_expo (t : ℝ) : ℝ :=
  if t = 1 then 1 else 1 - (2 : ℝ) ^ (-10 * t)

noncomputable def ease_in_out_expo (t : ℝ) : ℝ :=
  if t = 0 then 0
  else if t = 1 then 1
  else if t < 1/2 then 1/2 * (2 : ℝ) ^ (20 * t - 10)
  else 1 - 1/2 * (2 : ℝ) ^ (-20 * t + 10)

noncomputable def ease_out_back (t : ℝ) : ℝ :=
  let c1 : ℝ := 1.70158
  let c3 : ℝ := c1 + 1
  1 + c3 * (t - 1) ^ 3 + c1 * (t - 1) ^ 2

noncomputable def ease_out_elastic (t : ℝ) : ℝ :=
  if t = 0 then 0
  else if t = 1 then 1
  else
    let p : ℝ := 3/10
    (2 : ℝ) ^ (-10 * t) * Real.sin ((t - p/4) * (2 * Real.pi) / p) + 1

noncomputable def ease_out_bounce (t : ℝ) : ℝ :=
  let n1 : ℝ := 7.5625
  let d1 : ℝ := 2.75
  if t < 1 / d1 then n1 * t * t
  else if t < 2 / d1 then n1 * (t - 1.5/d1) * (t - 1.5/d1) + 0.75
  else if t < 2.5 / d1 then n1 * (t - 2.25/d1) * (t - 2.25/d1) + 0.9375
  else n1 * (t - 2.625/d1) * (t - 2.625/d1) + 0.984375

/-- A trivial hook set over a rational world whose on_update overwrites
the whole world with the progress value; used to exercise the generic
lifecycle theorems at a concrete instance. -/
def probeHooks : Hooks ℚ where
  easing := fun r => r
  on_start := fun s => s
  on_update := fun _ p => p
  on_finish := fun s => s

/-- A concrete activated PanCamera (the pan test vector of the spec):
snapshot (0, 50, 10, 20), targets (30, 80, 12, 22). -/
def panProbe : PanCamera where
  target_start := 30
  target_end := 80
  target_pmin := some 12
  target_pmax := some 22
  initial := some (0, 50, 10, 20)

/-- One color channel of one row of a frame of width w, as an ordered
list of byte values. -/
def rowChannel (w : ℕ) (img : ℕ → ℕ → Rgb) (i : ℕ) (ch : Rgb → ℕ) : List ℕ :=
  (List.range w).map fun j => ch (img i j)

/-- A concrete 1 x 2 source image used to exercise the chromatic
aberration stage. -/
def abProbe : ℕ → ℕ → Rgb := fun i j =>
  if i = 0 ∧ j = 0 then { r := 10, g := 20, b := 30 }
  else if i = 0 ∧ j = 1 then { r := 40, g := 50, b := 60 }
  else { r := 0, g := 0, b := 0 }

/-- A concrete scene holding two pending animations with durations 0.8
and 0.3 (the sequential-composition test vector of the spec). -/
def playProbe : Scene :=
  { heap := [{ duration := mkRat 4 5 }, { duration := mkRat 3 10 }]
    animations := []
    current_time := 0
    prev_play_start := 0
    speed_multiplier := 1 }

/- Shared lemmas about the animation lifecycle. -/

lemma rawProgress_le_one (a : Animation) (t : ℚ) : rawProgress a t ≤ 1 := by
  unfold rawProgress
  split
  · exact min_le_left _ _
  · exact le_refl 1

lemma rawProgress_eq_one_of_ge {a : Animation} {t : ℚ} (h : 1 ≤ rawProgress a t) :
    rawProgress a t = 1 :=
  le_antisymm (rawProgress_le_one a t) h

lemma update_idem_of_hooks {σ : Type} (hk : Hooks σ)
    (hU : ∀ s p, hk.on_update (hk.on_update s p) p = hk.on_update s p)
    (hFU : ∀ s, hk.on_update (hk.on_finish (hk.on_update s (hk.easing 1))) (hk.easing 1)
      = hk.on_finish (hk.on_update s (hk.easing 1)))
    (a : Animation) (s : σ) (t : ℚ) :
    Animation.update hk (Animation.update hk a s t).1 (Animation.update hk a s t).2 t
      = Animation.update hk a s t := by
  obtain ⟨d, st, bs, bf⟩ := a
  have hflag : ∀ b1 b2 : Bool, rawProgress (⟨d, st, b1, b2⟩ : Animation) t
      = rawProgress (⟨d, st, false, false⟩ : Animation) t := fun _ _ => rfl
  by_cases hlt : t < st
  · simp [Animation.update, hlt]
  · by_cases h1 : 1 ≤ rawProgress (⟨d, st, false, false⟩ : Animation) t
    · have hraw1 : ∀ b1 b2 : Bool, rawProgress (⟨d, st, b1, b2⟩ : Animation) t = 1 :=
        fun _ _ => rawProgress_eq_one_of_ge h1
      cases bf
      · cases bs <;> simp [Animation.update, hlt, hraw1, hFU]
      · cases bs <;> simp [Animation.update, hlt, hraw1, hU]
    · have hrawlt : ∀ b1 b2 : Bool, ¬ (1 ≤ rawProgress (⟨d, st, b1, b2⟩ : Animation) t) :=
        fun _ _ => h1
      cases bs <;> cases bf <;> simp [Animation.update, hlt, hrawlt, hflag, hU]

lemma pan_on_update_idem (s : PanState) (p : ℚ) :
    PanCamera.on_update (PanCamera.on_update s p) p = PanCamera.on_update s p := by
  obtain ⟨pc, cam⟩ := s
  rcases h : pc.initial with _ | ⟨s0, e0, p0, p1⟩ <;>
    simp [PanCamera.on_update, h]

/-- C1: For every Animation whose on_update writes the world as a pure
function of the eased progress and of state it does not itself modify
(hypotheses hU and hFU), evaluating Animation.update twice in succession
at the same clock value t leaves exactly the same animation flags and
world as evaluating it once.  In particular this holds unconditionally
for PanCamera, whose on_update writes each of the four camera scalars
absolutely from the snapshot captured at activation (third conjunct:
the written camera is a function of the snapshot, the targets and the
progress only, independent of the current camera). -/
theorem claim_c1_update_idempotent :
    (∀ (σ : Type) (hk : Hooks σ),
      (∀ s p, hk.on_update (hk.on_update s p) p = hk.on_update s p) →
      (∀ s, hk.on_update (hk.on_finish (hk.on_update s (hk.easing 1))) (hk.easing 1)
        = hk.on_finish (hk.on_update s (hk.easing 1))) →
      ∀ (a : Animation) (s : σ) (t : ℚ),
        Animation.update hk (Animation.update hk a s t).1 (Animation.update hk a s t).2 t
          = Animation.update hk a s t)
  ∧ (∀ (f : ℚ → ℚ) (a : Animation) (ps : PanState) (t : ℚ),
      Animation.update (PanCamera.hooks f) (Animation.update (PanCamera.hooks f) a ps t).1
          (Animation.update (PanCamera.hooks f) a ps t).2 t
        = Animation.update (PanCamera.hooks f) a ps t)
  ∧ (∀ (pc : PanCamera) (cam cam2 : Camera) (p s0 e0 p0 p1 : ℚ),
      pc.initial = some (s0, e0, p0, p1) →
        (PanCamera.on_update (pc, cam) p).2
          = { view_start := s0 + (pc.target_start - s0) * p
              view_end := e0 + (pc.target_end - e0) * p
              price_min := p0 + (pc.target_pmin.getD p0 - p0) * p
              price_max := p1 + (pc.target_pmax.getD p1 - p1) * p }
      ∧ PanCamera.on_update (pc, cam) p = PanCamera.on_update (pc, cam2) p) := by
  refine ⟨fun σ hk hU hFU => update_idem_of_hooks hk hU hFU, ?_, ?_⟩
  · intro f a ps t
    exact update_idem_of_hooks (PanCamera.hooks f)
      (fun s p => pan_on_update_idem s p)
      (fun s => pan_on_update_idem s (f 1))
      a ps t
  · intro pc cam cam2 p s0 e0 p0 p1 h
    constructor
    · simp [PanCamera.on_update, h]
    · simp [PanCamera.on_update, h]

/-- C1 witness: the generic conjunct applied to the probe hooks at
duration 1, start 0, t = 2, and the absolute-interpolation conjunct
applied to the activated pan at progress 1/2. -/
theorem claim_c1_witness :
    (Animation.update probeHooks
        (Animation.update probeHooks { duration := 1, start_time := 0 } (5:ℚ) 2).1
        (Animation.update probeHooks { duration := 1, start_time := 0 } (5:ℚ) 2).2 2
      = Animation.update probeHooks { duration := 1, start_time := 0 } (5:ℚ) 2)
  ∧ ((PanCamera.on_update (panProbe, ({} : Camera)) (1/2)).2
      = { view_start := 0 + (30 - 0) * (1/2)
          view_end := 50 + (80 - 50) * (1/2)
          price_min := 10 + (panProbe.target_pmin.getD 10 - 10) * (1/2)
          price_max := 20 + (panProbe.target_pmax.getD 20 - 20) * (1/2) }) :=
  ⟨claim_c1_update_idempotent.1 ℚ probeHooks (fun _ _ => rfl) (fun _ => rfl)
      { duration := 1, start_time := 0 } 5 2,
    (claim_c1_update_idempotent.2.2 panProbe {} {} (1/2) 0 50 10 20 rfl).1⟩

lemma rawProgress_one_mono {a : Animation} {t u : ℚ} (h : 1 ≤ rawProgress a t)
    (htu : t ≤ u) : 1 ≤ rawProgress a u := by
  unfold rawProgress at h ⊢
  by_cases hd : 0 < a.duration
  · simp only [hd, if_true, le_min_iff] at h ⊢
    refine ⟨le_refl 1, le_trans h.2 ?_⟩
    exact (div_le_div_iff_of_pos_right hd).mpr (by linarith)
  · simp [hd]

lemma update_finished_persist (f : ℚ → ℚ) (a : Animation) (c : Hits) (t : ℚ)
    (h : a.finished = true) :
    (Animation.update (countHooks f) a c t).1.finished = true
  ∧ (Animation.update (countHooks f) a c t).2.finishes = c.finishes := by
  obtain ⟨d, st, bs, bf⟩ := a
  cases bf
  · cases h
  · by_cases hlt : t < st
    · simp [Animation.update, hlt]
    · cases bs <;> simp [Animation.update, hlt, countHooks]

lemma evalTimes_finished_persist (f : ℚ → ℚ) (a : Animation) (c : Hits) (ts : List ℚ)
    (h : a.finished = true) :
    (evalTimes (countHooks f) a c ts).1.finished = true
  ∧ (evalTimes (countHooks f) a c ts).2.finishes = c.finishes := by
  induction ts generalizing a c with
  | nil => simpa [evalTimes] using h
  | cons t ts ih =>
    have hp := update_finished_persist f a c t h
    have hi := ih (Animation.update (countHooks f) a c t).1
      (Animation.update (countHooks f) a c t).2 hp.1
    refine ⟨hi.1, ?_⟩
    rw [evalTimes, hi.2, hp.2]

/-- C2: lifecycle of the hooks under Animation.update, observed through
counting hooks.  (1) An evaluation at t below start_time invokes no hook
and changes nothing.  (2) An evaluation at t at or past start_time that
reaches raw progress 1 on a not-yet-finished animation invokes on_finish
exactly once, marks the animation finished, and also invokes on_update
once with progress easing(1).  (3) With duration 0 every evaluation at
t at or past start_time has raw progress 1, so the very first one
finishes.  (4) Once finished, no sequence of further evaluations ever
invokes on_finish again.  (5) Raw progress 1 persists to every later
clock value.  (6) An evaluation of a finished animation at raw progress
1 invokes no on_finish but still invokes on_update exactly once with
progress easing(1). -/
theorem claim_c2_lifecycle :
    (∀ (f : ℚ → ℚ) (a : Animation) (c : Hits) (t : ℚ), t < a.start_time →
        Animation.update (countHooks f) a c t = (a, c))
  ∧ (∀ (f : ℚ → ℚ) (a : Animation) (c : Hits) (t : ℚ),
        a.start_time ≤ t → a.finished = false → 1 ≤ rawProgress a t →
          (Animation.update (countHooks f) a c t).2.finishes = c.finishes + 1
        ∧ (Animation.update (countHooks f) a c t).1.finished = true
        ∧ (Animation.update (countHooks f) a c t).2.updates = c.updates ++ [f 1])
  ∧ (∀ (a : Animation) (t : ℚ), a.duration = 0 → a.start_time ≤ t →
        1 ≤ rawProgress a t)
  ∧ (∀ (f : ℚ → ℚ) (a : Animation) (c : Hits) (ts : List ℚ), a.finished = true →
        (evalTimes (countHooks f) a c ts).2.finishes = c.finishes)
  ∧ (∀ (a : Animation) (t u : ℚ), 1 ≤ rawProgress a t → t ≤ u →
        1 ≤ rawProgress a u)
  ∧ (∀ (f : ℚ → ℚ) (a : Animation) (c : Hits) (t : ℚ),
        a.start_time ≤ t → a.finished = true → 1 ≤ rawProgress a t →
          (Animation.update (countHooks f) a c t).2.finishes = c.finishes
        ∧ (Animation.update (countHooks f) a c t).2.updates = c.updates ++ [f 1]) := by
  refine ⟨?_, ?_, ?_, ?_, ?_, ?_⟩
  · intro f a c t hlt
    simp [Animation.update, hlt]
  · intro f a c t hge hfin hraw
    obtain ⟨d, st, bs, bf⟩ := a
    cases bf
    case true => cases hfin
    case false =>
      have hlt : ¬ t < st := not_lt.mpr hge
      have hr1 : rawProgress (⟨d, st, bs, false⟩ : Animation) t = 1 :=
        rawProgress_eq_one_of_ge hraw
      have hraw1 : ∀ b1 b2 : Bool, rawProgress (⟨d, st, b1, b2⟩ : Animation) t = 1 :=
        fun _ _ => hr1
      cases bs <;> simp [Animation.update, hlt, hraw1, countHooks]
  · intro a t hd _
    unfold rawProgress
    rw [hd]
    simp
  · intro f a c ts h
    exact (evalTimes_finished_persist f a c ts h).2
  · intro a t u h htu
    exact rawProgress_one_mono h htu
  · intro f a c t hge hfin hraw
    obtain ⟨d, st, bs, bf⟩ := a
    cases bf
    case false => cases hfin
    case true =>
      have hlt : ¬ t < st := not_lt.mpr hge
      have hr1 : rawProgress (⟨d, st, bs, true⟩ : Animation) t = 1 :=
        rawProgress_eq_one_of_ge hraw
      have hraw1 : ∀ b1 b2 : Bool, rawProgress (⟨d, st, b1, b2⟩ : Animation) t = 1 :=
        fun _ _ => hr1
      cases bs <;> simp [Animation.update, hlt, hraw1, countHooks]

/-- C2 witness: the six conjuncts at the identity easing with a
zero-duration animation starting at clock 1 and a finished animation. -/
theorem claim_c2_witness :
    (Animation.update (countHooks id) { duration := 0, start_time := 1 } {} 0
        = ({ duration := 0, start_time := 1 }, {}))
  ∧ ((Animation.update (countHooks id) { duration := 0, start_time := 1 } {} 1).2.finishes
        = Hits.finishes {} + 1
      ∧ (Animation.update (countHooks id) { duration := 0, start_time := 1 } {} 1).1.finished
        = true
      ∧ (Animation.update (countHooks id) { duration := 0, start_time := 1 } {} 1).2.updates
        = Hits.updates {} ++ [id 1])
  ∧ (1 ≤ rawProgress { duration := 0, start_time := 1 } 1)
  ∧ ((evalTimes (countHooks id) { duration := 0, start_time := 1, started := true, finished := true }
        {} [2, 3]).2.finishes = Hits.finishes {})
  ∧ (1 ≤ rawProgress { duration := 0, start_time := 1 } 3)
  ∧ ((Animation.update (countHooks id)
        { duration := 0, start_time := 1, started := true, finished := true } {} 2).2.finishes
        = Hits.finishes {}
      ∧ (Animation.update (countHooks id)
        { duration := 0, start_time := 1, started := true, finished := true } {} 2).2.updates
        = Hits.updates {} ++ [id 1]) :=
  ⟨claim_c2_lifecycle.1 id { duration := 0, start_time := 1 } {} 0 (by decide),
    claim_c2_lifecycle.2.1 id { duration := 0, start_time := 1 } {} 1 (by decide) rfl
      (by decide),
    claim_c2_lifecycle.2.2.1 { duration := 0, start_time := 1 } 1 rfl (by decide),
    claim_c2_lifecycle.2.2.2.1 id
      { duration := 0, start_time := 1, started := true, finished := true } {} [2, 3] rfl,
    claim_c2_lifecycle.2.2.2.2.1 { duration := 0, start_time := 1 } 1 3 (by decide)
      (by decide),
    claim_c2_lifecycle.2.2.2.2.2 id
      { duration := 0, start_time := 1, started := true, finished := true } {} 2
      (by decide) rfl (by decide)⟩

lemma list_getD_set_self {α : Type} [Inhabited α] (l : List α) (i : ℕ) (a : α)
    (h : i < l.length) : (l.set i a).getD i default = a := by
  simp [List.getD_eq_getElem?_getD, List.getElem?_set_self, h]

lemma list_getD_set_ne {α : Type} [Inhabited α] (l : List α) {i j : ℕ} (a : α)
    (h : i ≠ j) : (l.set i a).getD j default = l.getD j default := by
  simp [List.getD_eq_getElem?_getD, List.getElem?_set_ne h]

example (l : List ℕ) (n : ℕ) (h : n < l.length) : l.getD n 0 ∈ l := by
  rw [List.getD_eq_getElem l 0 h]
  exact List.getElem_mem h

example (n : ℕ) : List.range (n+1) = 0 :: (List.range n).map Nat.succ :=
  List.range_succ_eq_map n

lemma list_getD_mem {α : Type} (l : List α) (d : α) (n : ℕ) (h : n < l.length) :
    l.getD n d ∈ l := by
  rw [List.getD_eq_getElem l d h]
  exact List.getElem_mem h

lemma playGo_spec (speed : ℚ) (durOpt : Option ℚ) (delay base : ℚ) :
    ∀ (ids : List ℕ) (idx : ℕ) (maxEnd : ℚ) (heap : List Animation) (sched : List ℕ),
      ids.Nodup → (∀ i ∈ ids, i < heap.length) →
      (∀ j, j ∉ ids →
          (playGo speed durOpt delay base idx maxEnd heap sched ids).1.getD j default
            = heap.getD j default)
      ∧ (∀ k, k < ids.length →
          (playGo speed durOpt delay base idx maxEnd heap sched ids).1.getD (ids.getD k 0) default
            = { heap.getD (ids.getD k 0) default with
                duration := (durOpt.getD ((heap.getD (ids.getD k 0) default).duration)) / speed
                start_time := base + ((idx + k : ℕ) : ℚ) * delay / speed })
      ∧ (playGo speed durOpt delay base idx maxEnd heap sched ids).2.2
          = List.foldl max maxEnd ((List.range ids.length).map fun k =>
              ((idx + k : ℕ) : ℚ) * delay / speed
                + (durOpt.getD ((heap.getD (ids.getD k 0) default).duration)) / speed) := by
  intro ids
  induction ids with
  | nil =>
    intro idx maxEnd heap sched _ _
    refine ⟨fun j _ => rfl, fun k hk => absurd hk (by simp), by simp [playGo]⟩
  | cons i rest ih =>
    intro idx maxEnd heap sched hnd hbd
    have hi : i < heap.length := hbd i (List.mem_cons_self i rest)
    have hirest : i ∉ rest := (List.nodup_cons.mp hnd).1
    have hndr : rest.Nodup := (List.nodup_cons.mp hnd).2
    -- the heap after processing the head
    set old := heap.getD i default with hold
    set nd := (durOpt.getD old.duration) / speed with hnd2
    set a1 : Animation :=
      { old with duration := nd, start_time := base + (idx : ℚ) * delay / speed } with ha1
    set heap1 := heap.set i a1 with hheap1
    have hbd1 : ∀ j ∈ rest, j < heap1.length := by
      intro j hj
      rw [hheap1, List.length_set]
      exact hbd j (List.mem_cons_of_mem i hj)
    have hrest_same : ∀ j ∈ rest, heap1.getD j default = heap.getD j default := by
      intro j hj
      exact list_getD_set_ne heap a1 (fun he => hirest (he ▸ hj))
    obtain ⟨ihA, ihB, ihC⟩ :=
      ih (idx + 1) (max maxEnd ((idx : ℚ) * delay / speed + nd)) heap1 (sched ++ [i]) hndr hbd1
    have hstep : playGo speed durOpt delay base idx maxEnd heap sched (i :: rest)
        = playGo speed durOpt delay base (idx + 1)
            (max maxEnd ((idx : ℚ) * delay / speed + nd)) heap1 (sched ++ [i]) rest := by
      rw [playGo]
    refine ⟨?_, ?_, ?_⟩
    · intro j hj
      rw [hstep]
      have hj1 : j ∉ rest := fun h => hj (List.mem_cons_of_mem i h)
      have hj2 : j ≠ i := fun h => hj (h ▸ List.mem_cons_self i rest)
      rw [ihA j hj1, hheap1, list_getD_set_ne heap a1 (fun he => hj2 he.symm)]
    · intro k hk
      rw [hstep]
      match k with
      | 0 =>
        have h0 : (i :: rest).getD 0 0 = i := rfl
        rw [h0, ihA i hirest, hheap1, list_getD_set_self heap i a1 hi, ha1, hnd2, hold]
        have hcast : ((idx + 0 : ℕ) : ℚ) = (idx : ℚ) := by push_cast; ring
        rw [hcast]
      | (k' + 1) =>
        have hgd : (i :: rest).getD (k' + 1) 0 = rest.getD k' 0 := rfl
        have hk' : k' < rest.length := by simpa using hk
        rw [hgd, ihB k' hk', hrest_same _ (list_getD_mem rest 0 k' hk')]
        have : ((idx + 1 + k' : ℕ) : ℚ) = ((idx + (k' + 1) : ℕ) : ℚ) := by
          push_cast; ring
        rw [this]
    · rw [hstep, ihC]
      have hr : List.range (i :: rest).length = 0 :: (List.range rest.length).map Nat.succ := by
        simp [List.range_succ_eq_map]
      rw [hr, List.map_cons, List.map_map, List.foldl_cons]
      congr 1
      apply List.map_congr_left
      intro k hk
      rw [List.mem_range] at hk
      have hgd : (i :: rest).getD (Nat.succ k) 0 = rest.getD k 0 := rfl
      simp only [Function.comp]
      rw [hgd, hrest_same _ (list_getD_mem rest 0 k hk)]
      have hcast : ((idx + 1 + k : ℕ) : ℚ) = ((idx + (k + 1) : ℕ) : ℚ) := by
        push_cast; ring
      rw [hcast]

lemma playGo_sched (speed : ℚ) (durOpt : Option ℚ) (delay base : ℚ) :
    ∀ (ids : List ℕ) (idx : ℕ) (maxEnd : ℚ) (heap : List Animation) (sched : List ℕ),
      (playGo speed durOpt delay base idx maxEnd heap sched ids).2.1 = sched ++ ids := by
  intro ids
  induction ids with
  | nil =>
    intro idx maxEnd heap sched
    simp [playGo]
  | cons i rest ih =>
    intro idx maxEnd heap sched
    rw [playGo, ih]
    simp

lemma playGo_length (speed : ℚ) (durOpt : Option ℚ) (delay base : ℚ) :
    ∀ (ids : List ℕ) (idx : ℕ) (maxEnd : ℚ) (heap : List Animation) (sched : List ℕ),
      (playGo speed durOpt delay base idx maxEnd heap sched ids).1.length = heap.length := by
  intro ids
  induction ids with
  | nil =>
    intro idx maxEnd heap sched
    rfl
  | cons i rest ih =>
    intro idx maxEnd heap sched
    rw [playGo, ih, List.length_set]

/-- C3 (amended): Scene.play assigns each of n pairwise-distinct
animations start_time = cursor + index * delay / speed_multiplier (the
source divides the stagger delay by the speed multiplier) and advances
the cursor by the running maximum, started at 0, of
index * delay / speed + assigned duration, where the assigned duration
is the explicit duration when given, else the animationduration,
divided by the speed multiplier.  Second conjunct: the concrete
sequential case with durations 0.8 and 0.3, no delay, speed 1, advances
the cursor by exactly 0.8 (the maximum, not the sum). -/
theorem claim_c3_play_schedule :
    (∀ (s : Scene) (ids : List ℕ) (durOpt : Option ℚ) (delay : ℚ),
      ids.Nodup → (∀ i ∈ ids, i < s.heap.length) →
      (∀ k, k < ids.length →
          ((s.play ids durOpt delay).heap.getD (ids.getD k 0) default).start_time
            = s.current_time + (k : ℚ) * delay / s.speed_multiplier)
      ∧ (s.play ids durOpt delay).current_time
          = s.current_time + List.foldl max 0 ((List.range ids.length).map fun (k : ℕ) =>
              (k : ℚ) * delay / s.speed_multiplier
                + (durOpt.getD ((s.heap.getD (ids.getD k 0) default).duration))
                    / s.speed_multiplier))
  ∧ (playProbe.play [0, 1] none 0).current_time = mkRat 4 5 := by
  constructor
  · intro s ids durOpt delay hnd hbd
    obtain ⟨specA, specB, specC⟩ :=
      playGo_spec s.speed_multiplier durOpt delay s.current_time ids 0 0
        s.heap s.animations hnd hbd
    constructor
    · intro k hk
      have hproj : (s.play ids durOpt delay).heap
          = (playGo s.speed_multiplier durOpt delay s.current_time 0 0
              s.heap s.animations ids).1 := rfl
      rw [hproj, specB k hk]
      norm_num
    · have hproj : (s.play ids durOpt delay).current_time
          = s.current_time + (playGo s.speed_multiplier durOpt delay s.current_time 0 0
              s.heap s.animations ids).2.2 := rfl
      rw [hproj, specC]
      congr 1
      apply congrArg
      apply List.map_congr_left
      intro k _
      norm_num
  · show (0 : ℚ) + (playGo 1 none 0 0 0 0 playProbe.heap [] [0, 1]).2.2 = mkRat 4 5
    rw [playGo, playGo, playGo]
    norm_num [playProbe, Rat.mkRat_eq_div]

/-- C3 counterexample: with speed multiplier 2 and stagger delay 1, the
second scheduled animation receives start_time cursor + 1/2, not
cursor + index * delay = 1 as the claim states. -/
theorem claim_c3_counterexample :
    ((Scene.play
        { heap := [{ duration := 1 }, { duration := 1 }], animations := []
          current_time := 0, prev_play_start := 0, speed_multiplier := 2 }
        [0, 1] none 1).heap.getD 1 default).start_time = mkRat 1 2
  ∧ mkRat 1 2 ≠ 0 + (1 : ℚ) * 1 := by
  constructor
  · show ((playGo 2 none 1 0 0 0 [{ duration := 1 }, { duration := 1 }] [] [0, 1]).1.getD 1
        default).start_time = mkRat 1 2
    rw [playGo, playGo, playGo]
    norm_num [Rat.mkRat_eq_div, List.set, List.getD, List.getElem?_cons_succ]
  · norm_num [Rat.mkRat_eq_div]

/-- C3 witness: the schedule formula applied to the two-animation probe
scene with no delay at index 0, and the cursor-advance formula there. -/
theorem claim_c3_witness :
    (((playProbe.play [0, 1] none 0).heap.getD ([0, 1].getD 0 0) default).start_time
        = playProbe.current_time + (0 : ℚ) * 0 / playProbe.speed_multiplier)
  ∧ (playProbe.play [0, 1] none 0).current_time
      = playProbe.current_time + List.foldl max 0 ((List.range ([0, 1] : List ℕ).length).map
          fun (k : ℕ) => (k : ℚ) * 0 / playProbe.speed_multiplier
            + ((none : Option ℚ).getD ((playProbe.heap.getD ([0, 1].getD k 0) default).duration))
                / playProbe.speed_multiplier) :=
  ⟨(claim_c3_play_schedule.1 playProbe [0, 1] none 0 (by decide) (by decide)).1 0
      (by decide),
    (claim_c3_play_schedule.1 playProbe [0, 1] none 0 (by decide) (by decide)).2⟩

lemma foldl_max_map_eq (f : ℕ → ℚ) (l : List ℕ) (a : ℚ) :
    List.foldl (fun m j => max m (f j)) a l = List.foldl max a (l.map f) := by
  induction l generalizing a with
  | nil => rfl
  | cons x xs ih => simp [ih]

lemma le_foldl_max (l : List ℚ) (a : ℚ) : a ≤ List.foldl max a l := by
  induction l generalizing a with
  | nil => exact le_refl a
  | cons x xs ih => exact le_trans (le_max_left a x) (ih (max a x))

lemma mem_le_foldl_max (l : List ℚ) : ∀ (a x : ℚ), x ∈ l → x ≤ List.foldl max a l := by
  induction l with
  | nil => intro a x h; cases h
  | cons y ys ih =>
    intro a x h
    rcases List.mem_cons.mp h with h1 | h1
    · subst h1
      exact le_trans (le_max_right a x) (le_foldl_max ys (max a x))
    · exact ih (max a y) x h1

lemma foldl_max_cases (l : List ℚ) (a : ℚ) :
    List.foldl max a l = a ∨ List.foldl max a l ∈ l := by
  induction l generalizing a with
  | nil => exact Or.inl rfl
  | cons x xs ih =>
    rcases ih (max a x) with h1 | h1
    · rcases max_choice a x with h2 | h2
      · exact Or.inl (by rw [List.foldl_cons, h1, h2])
      · exact Or.inr (by rw [List.foldl_cons, h1, h2]; exact List.mem_cons_self x xs)
    · exact Or.inr (List.mem_cons_of_mem x h1)

lemma total_duration_cons (s : Scene) (j : ℕ) (rest : List ℕ)
    (h : s.animations = j :: rest) :
    s.total_duration
      = max s.current_time (List.foldl max (s.animEnd j) (rest.map s.animEnd)) := by
  rw [Scene.total_duration, h]
  show s.current_time ⊔ List.foldl (fun m j2 => max m (s.animEnd j2)) (s.animEnd j) rest = _
  rw [foldl_max_map_eq]

/-- C4 (amended): Scene.total_duration equals the scheduling cursor for a
scene with no animations, and for a scene with animations equals the
maximum of the cursor and every animation end start_time + duration, so
after a trailing wait that pushes the cursor past every animation end it
equals the cursor, not the animation maximum.  Conjuncts: the empty
case; the cursor is always a lower bound; every scheduled animation end
is a lower bound; and the value is attained by the cursor or by some
scheduled animation end. -/
theorem claim_c4_total_duration :
    (∀ s : Scene, s.animations = [] → s.total_duration = s.current_time)
  ∧ (∀ s : Scene, s.current_time ≤ s.total_duration)
  ∧ (∀ (s : Scene) (i : ℕ), i ∈ s.animations → s.animEnd i ≤ s.total_duration)
  ∧ (∀ s : Scene, s.total_duration = s.current_time
      ∨ ∃ i ∈ s.animations, s.total_duration = s.animEnd i) := by
  refine ⟨?_, ?_, ?_, ?_⟩
  · intro s h
    rw [Scene.total_duration, h]
  · intro s
    cases h : s.animations with
    | nil => rw [Scene.total_duration, h]
    | cons j rest => rw [total_duration_cons s j rest h]; exact le_max_left _ _
  · intro s i hi
    cases h : s.animations with
    | nil => rw [h] at hi; cases hi
    | cons j rest =>
      rw [h] at hi
      rw [total_duration_cons s j rest h]
      refine le_trans ?_ (le_max_right s.current_time _)
      rcases List.mem_cons.mp hi with h1 | h1
      · subst h1
        exact le_foldl_max _ _
      · exact mem_le_foldl_max _ _ _ (List.mem_map_of_mem _ h1)
  · intro s
    cases h : s.animations with
    | nil => exact Or.inl (by rw [Scene.total_duration, h])
    | cons j rest =>
      have hred := total_duration_cons s j rest h
      rcases max_choice s.current_time
          (List.foldl max (s.animEnd j) (rest.map s.animEnd)) with h1 | h1
      · exact Or.inl (hred.trans h1)
      · rcases foldl_max_cases (rest.map s.animEnd) (s.animEnd j) with h2 | h2
        · exact Or.inr ⟨j, List.mem_cons_self j rest, (hred.trans h1).trans h2⟩
        · obtain ⟨i, hi, hv⟩ := List.mem_map.mp h2
          exact Or.inr ⟨i, List.mem_cons_of_mem j hi, (hred.trans h1).trans hv.symm⟩

/-- C4 counterexample: play one animation of duration 1 from cursor 0,
then wait(5).  The only scheduled animation ends at 1, but
total_duration is 6, the cursor value, refuting the claim that after a
trailing wait the total equals the animation maximum. -/
theorem claim_c4_counterexample :
    ((Scene.wait (Scene.play
        { heap := [{ duration := 1 }], animations := [], current_time := 0
          prev_play_start := 0, speed_multiplier := 1 } [0] none 0) 5).total_duration = 6)
  ∧ ((Scene.wait (Scene.play
        { heap := [{ duration := 1 }], animations := [], current_time := 0
          prev_play_start := 0, speed_multiplier := 1 } [0] none 0) 5).animEnd 0 = 1)
  ∧ (6 : ℚ) ≠ 1 := by
  refine ⟨?_, ?_, by norm_num⟩
  · norm_num [Scene.total_duration, Scene.wait, Scene.play, playGo, Scene.animEnd,
      List.getD]
  · norm_num [Scene.animEnd, Scene.wait, Scene.play, playGo, List.getD]

/-- C4 witness: the empty-scene conjunct at a scene with cursor 7, and
the lower-bound conjunct at a one-animation scene. -/
theorem claim_c4_witness :
    (Scene.total_duration
        { heap := [], animations := [], current_time := 7
          prev_play_start := 0, speed_multiplier := 1 } = 7)
  ∧ (Scene.animEnd
        { heap := [{ duration := 2, start_time := 1 }], animations := [0], current_time := 0
          prev_play_start := 0, speed_multiplier := 1 } 0
      ≤ Scene.total_duration
        { heap := [{ duration := 2, start_time := 1 }], animations := [0], current_time := 0
          prev_play_start := 0, speed_multiplier := 1 }) :=
  ⟨claim_c4_total_duration.1
      { heap := [], animations := [], current_time := 7
        prev_play_start := 0, speed_multiplier := 1 } rfl,
    claim_c4_total_duration.2.2.1
      { heap := [{ duration := 2, start_time := 1 }], animations := [0], current_time := 0
        prev_play_start := 0, speed_multiplier := 1 } 0 (by decide)⟩

/-- C9 (amended): scheduling performs no duration validation at all.
Scene.play (and play_with_previous) unconditionally appends every passed
animation to the scene schedule whatever its duration, negative
included; no error is reported (the embedded schedulers are total
functions, as nothing in the source raises).  A nonpositive duration is
treated as instant at evaluation time: raw progress is 1 on any
evaluation at or past start_time, so zero duration is indeed legal. -/
theorem claim_c9_schedule_accepts :
    (∀ (s : Scene) (ids : List ℕ) (durOpt : Option ℚ) (delay : ℚ),
        (s.play ids durOpt delay).animations = s.animations ++ ids)
  ∧ (∀ (s : Scene) (ids : List ℕ) (durOpt : Option ℚ) (offset : ℚ),
        (s.play_with_previous ids durOpt offset).animations = s.animations ++ ids)
  ∧ (∀ (a : Animation) (t : ℚ), a.duration ≤ 0 → a.start_time ≤ t →
        rawProgress a t = 1) := by
  refine ⟨?_, ?_, ?_⟩
  · intro s ids durOpt delay
    exact playGo_sched s.speed_multiplier durOpt delay s.current_time ids 0 0
      s.heap s.animations
  · intro s ids durOpt offset
    show (pwpGo s.speed_multiplier
        (s.prev_play_start + offset / s.speed_multiplier) durOpt s.heap s.animations ids).2
      = s.animations ++ ids
    generalize s.heap = heap
    generalize s.animations = sched
    induction ids generalizing heap sched with
    | nil => simp [pwpGo]
    | cons i rest ih =>
      rw [pwpGo, ih]
      simp
  · intro a t hd _
    rw [rawProgress, if_neg (not_lt.mpr hd)]

/-- C9 counterexample: scheduling an animation whose duration is -1 is
not rejected: play returns normally, the animation lands in the
schedule, and its stored duration is -1 (divided by speed 1).  No
configuration error exists in the code. -/
theorem claim_c9_counterexample :
    ((Scene.play
        { heap := [{ duration := -1 }], animations := [], current_time := 0
          prev_play_start := 0, speed_multiplier := 1 } [0] none 0).animations = [0])
  ∧ (((Scene.play
        { heap := [{ duration := -1 }], animations := [], current_time := 0
          prev_play_start := 0, speed_multiplier := 1 } [0] none 0).heap.getD 0
        default).duration = -1) := by
  constructor
  · exact playGo_sched 1 none 0 0 [0] 0 0 [{ duration := -1 }] []
  · norm_num [Scene.play, playGo, List.getD]

/-- C9 witness: the instant-evaluation conjunct at duration 0 and the
unconditional scheduling conjunct need no evaluation; the hypotheses of
the third conjunct are discharged at duration 0, start 0, t = 2. -/
theorem claim_c9_witness :
    rawProgress { duration := 0, start_time := 0 } 2 = 1 :=
  claim_c9_schedule_accepts.2.2 { duration := 0, start_time := 0 } 2 (by decide) (by decide)

/-- C10: Scene.play and Scene.play_with_previous overwrite the duration
attribute of the passed Animation object in place: it becomes the
explicit duration when given, else the current stored duration, divided
by the speed multiplier, and the same object reference is appended to
the schedule on every call.  Passing the same object to play twice
leaves its stored duration divided by the speed multiplier twice, that
is d / speed^2, and schedules it twice. -/
theorem claim_c10_inplace_duration :
    (∀ (s : Scene) (i : ℕ), i < s.heap.length →
        ((s.play [i] none 0).heap.getD i default).duration
          = (s.heap.getD i default).duration / s.speed_multiplier
      ∧ (s.play [i] none 0).animations = s.animations ++ [i])
  ∧ (∀ (s : Scene) (i : ℕ) (dur : ℚ), i < s.heap.length →
        ((s.play [i] (some dur) 0).heap.getD i default).duration
          = dur / s.speed_multiplier)
  ∧ (∀ (s : Scene) (i : ℕ), i < s.heap.length →
        (((s.play [i] none 0).play [i] none 0).heap.getD i default).duration
          = (s.heap.getD i default).duration / s.speed_multiplier ^ 2
      ∧ ((s.play [i] none 0).play [i] none 0).animations
          = s.animations ++ [i] ++ [i])
  ∧ (∀ (s : Scene) (i : ℕ), i < s.heap.length →
        ((s.play_with_previous [i] none 0).heap.getD i default).duration
          = (s.heap.getD i default).duration / s.speed_multiplier) := by
  have hone : ∀ (s : Scene) (i : ℕ), i < s.heap.length →
      ((s.play [i] none 0).heap.getD i default).duration
        = (s.heap.getD i default).duration / s.speed_multiplier := by
    intro s i hi
    show (((s.heap.set i _).getD i default)).duration = _
    rw [list_getD_set_self s.heap i _ hi]
    rfl
  refine ⟨fun s i hi => ⟨hone s i hi, ?_⟩, ?_, ?_, ?_⟩

  · exact playGo_sched s.speed_multiplier none 0 s.current_time [i] 0 0 s.heap s.animations
  · intro s i dur hi
    show (((s.heap.set i _).getD i default)).duration = _
    rw [list_getD_set_self s.heap i _ hi]
    rfl
  · intro s i hi
    have hlen : i < (s.play [i] none 0).heap.length := by
      show i < (playGo s.speed_multiplier none 0 s.current_time 0 0
        s.heap s.animations [i]).1.length
      rw [playGo_length]
      exact hi
    constructor
    · rw [hone (s.play [i] none 0) i hlen, hone s i hi]
      have hsp : (s.play [i] none 0).speed_multiplier = s.speed_multiplier := rfl
      rw [hsp, div_div, ← sq]
    · have h1 : (s.play [i] none 0).animations = s.animations ++ [i] :=
        playGo_sched s.speed_multiplier none 0 s.current_time [i] 0 0 s.heap s.animations
      have h2 : ((s.play [i] none 0).play [i] none 0).animations
          = (s.play [i] none 0).animations ++ [i] :=
        playGo_sched (s.play [i] none 0).speed_multiplier none 0
          (s.play [i] none 0).current_time [i] 0 0
          (s.play [i] none 0).heap (s.play [i] none 0).animations
      rw [h2, h1]
  · intro s i hi
    show (((s.heap.set i _).getD i default)).duration = _
    rw [list_getD_set_self s.heap i _ hi]
    rfl

/-- C10 witness: both scheduling calls applied to the probe scene at
index 0: one play divides 0.8 by the speed once, two plays divide it
twice. -/
theorem claim_c10_witness :
    (((playProbe.play [0] none 0).heap.getD 0 default).duration
        = (playProbe.heap.getD 0 default).duration / playProbe.speed_multiplier)
  ∧ (((playProbe.play [0] none 0).play [0] none 0).heap.getD 0 default).duration
        = (playProbe.heap.getD 0 default).duration / playProbe.speed_multiplier ^ 2 :=
  ⟨(claim_c10_inplace_duration.1 playProbe 0 (by decide)).1,
    (claim_c10_inplace_duration.2.2.1 playProbe 0 (by decide)).1⟩

/-- C6 (amended): visible_points returns the first
max(1, floor(num_points * draw_progress)) samples of each coordinate
list, never an empty reveal: for small positive or zero progress one
leading sample is exposed, not zero.  At draw_progress 1 (with equally
long coordinate lists) all samples are exposed, and the concrete case of
10 samples at progress 0.35 exposes exactly 3. -/
theorem claim_c6_visible_points :
    (∀ l : LineElement, 0 ≤ l.draw_progress →
        l.visible_points
          = (l.points_x.take (max 1 ⌊(l.num_points : ℚ) * l.draw_progress⌋).toNat,
             l.points_y.take (max 1 ⌊(l.num_points : ℚ) * l.draw_progress⌋).toNat))
  ∧ (∀ l : LineElement, l.points_y.length = l.points_x.length → l.draw_progress = 1 →
        l.visible_points = (l.points_x, l.points_y))
  ∧ (({ points_x := [0, 1, 2, 3, 4, 5, 6, 7, 8, 9]
        points_y := [0, 1, 2, 3, 4, 5, 6, 7, 8, 9]
        draw_progress := mkRat 7 20 } : LineElement).visible_points.1.length = 3
    ∧ ({ points_x := [0, 1, 2, 3, 4, 5, 6, 7, 8, 9]
         points_y := [0, 1, 2, 3, 4, 5, 6, 7, 8, 9]
         draw_progress := 1 } : LineElement).visible_points
        = ([0, 1, 2, 3, 4, 5, 6, 7, 8, 9], [0, 1, 2, 3, 4, 5, 6, 7, 8, 9])) := by
  have hfloor : ∀ l : LineElement, 0 ≤ l.draw_progress →
      pyInt ((l.num_points : ℚ) * l.draw_progress)
        = ⌊(l.num_points : ℚ) * l.draw_progress⌋ := by
    intro l hp
    rw [pyInt, if_pos (mul_nonneg (Nat.cast_nonneg _) hp)]
  refine ⟨?_, ?_, ?_, ?_⟩
  · intro l hp
    rw [LineElement.visible_points, hfloor l hp]
  · intro l hxy hp
    rw [LineElement.visible_points, hfloor l (by rw [hp]; norm_num), hp, mul_one]
    have hcast : ⌊((l.num_points : ℚ))⌋ = (l.num_points : ℤ) := Int.floor_natCast _
    rw [hcast]
    have hmax : (max (1 : ℤ) (l.num_points : ℤ)).toNat = max 1 l.num_points := by omega
    rw [hmax]
    rcases Nat.eq_zero_or_pos l.num_points with h0 | h0
    · have hx : l.points_x = [] := List.eq_nil_of_length_eq_zero h0
      have hy : l.points_y = [] := List.eq_nil_of_length_eq_zero (by rw [hxy, ← h0]; rfl)
      rw [hx, hy]
      simp
    · have hm : max 1 l.num_points = l.num_points := max_eq_right h0
      rw [hm]
      have hx : l.points_x.take l.num_points = l.points_x := List.take_length _
      have hy : l.points_y.take l.num_points = l.points_y := by
        have : l.num_points = l.points_y.length := by rw [hxy]; rfl
        rw [this]
        exact List.take_length _
      rw [hx, hy]
  · with_unfolding_all decide
  · with_unfolding_all decide

/-- C6 counterexample: a line with 10 samples and draw_progress 0
exposes 1 leading sample, not floor(10 * 0) = 0 as the claim states:
the source clamps the count from below with max(1, -). -/
theorem claim_c6_counterexample :
    ({ points_x := [0, 1, 2, 3, 4, 5, 6, 7, 8, 9]
       points_y := [0, 1, 2, 3, 4, 5, 6, 7, 8, 9]
       draw_progress := 0 } : LineElement).visible_points.1.length = 1
  ∧ (⌊((10 : ℚ) * 0)⌋.toNat = 0 ∧ (1 : ℕ) ≠ 0) := by
  refine ⟨by with_unfolding_all decide, by norm_num, by norm_num⟩

/-- C6 witness: the take formula applied to the 10-sample probe line at
progress 0.35. -/
theorem claim_c6_witness :
    ({ points_x := [0, 1, 2, 3, 4, 5, 6, 7, 8, 9]
       points_y := [0, 1, 2, 3, 4, 5, 6, 7, 8, 9]
       draw_progress := mkRat 7 20 } : LineElement).visible_points
      = (List.take (max 1 ⌊((10 : ℕ) : ℚ) * mkRat 7 20⌋).toNat
            [0, 1, 2, 3, 4, 5, 6, 7, 8, 9],
         List.take (max 1 ⌊((10 : ℕ) : ℚ) * mkRat 7 20⌋).toNat
            [0, 1, 2, 3, 4, 5, 6, 7, 8, 9]) :=
  claim_c6_visible_points.1
    { points_x := [0, 1, 2, 3, 4, 5, 6, 7, 8, 9]
      points_y := [0, 1, 2, 3, 4, 5, 6, 7, 8, 9]
      draw_progress := mkRat 7 20 } (by decide)

lemma flatMap_const_length {α : Type} (l : List α) (k : ℕ) (f : α → List ℕ)
    (h : ∀ a ∈ l, (f a).length = k) : (l.flatMap f).length = l.length * k := by
  induction l with
  | nil => simp
  | cons x xs ih =>
    rw [List.flatMap_cons, List.length_append, h x (List.mem_cons_self x xs),
      ih (fun a ha => h a (List.mem_cons_of_mem x ha)), List.length_cons]
    ring

/-- C5 (amended): the render loop produces int(total_duration * fps)
frames, truncated toward zero, not round(total_duration * fps); the
clock values fed to the scene are frame_idx / fps in strictly increasing
order, and each serialized frame is rows * cols * 3 packed RGB bytes. -/
theorem claim_c5_frame_stream :
    (∀ (s : Scene) (fps : ℚ), 0 ≤ s.total_duration * fps →
        (renderTimes s fps).length = ⌊s.total_duration * fps⌋.toNat)
  ∧ (∀ (s : Scene) (fps : ℚ), 0 < fps →
        (renderTimes s fps).Pairwise (· < ·))
  ∧ (∀ fr : Frame, fr.tobytes.length = fr.rows * fr.cols * 3) := by
  refine ⟨?_, ?_, ?_⟩
  · intro s fps h
    have hlen : (renderTimes s fps).length
        = (renderFrameCount s.total_duration fps).toNat := by
      simp [renderTimes, frameTimes]
    rw [hlen, renderFrameCount, pyInt, if_pos h]
  · intro s fps hf
    have hform : renderTimes s fps
        = (List.range (renderFrameCount s.total_duration fps).toNat).map
            (fun (i : ℕ) => (i : ℚ) / fps) := rfl
    rw [hform]
    refine List.Pairwise.map _ (fun a b hab => ?_) (List.pairwise_lt_range _)
    exact div_lt_div_of_pos_right (by exact_mod_cast hab) hf
  · intro fr
    have hinner : ∀ i, ((List.range fr.cols).flatMap fun j =>
        [(fr.px i j).r, (fr.px i j).g, (fr.px i j).b]).length = fr.cols * 3 := by
      intro i
      rw [flatMap_const_length (List.range fr.cols) 3
          (fun j => [(fr.px i j).r, (fr.px i j).g, (fr.px i j).b]) (fun j _ => rfl),
        List.length_range]
    rw [Frame.tobytes, flatMap_const_length (List.range fr.rows) (fr.cols * 3)
        (fun i => (List.range fr.cols).flatMap fun j =>
          [(fr.px i j).r, (fr.px i j).g, (fr.px i j).b]) (fun i _ => hinner i),
      List.length_range, Nat.mul_assoc]

/-- C5 counterexample: a scene whose total duration is 0.9 rendered at
1 fps writes int(0.9) = 0 frames, while the claim demands
round(0.9 * 1) = 1 frame. -/
theorem claim_c5_counterexample :
    (renderTimes
        { heap := [], animations := [], current_time := mkRat 9 10
          prev_play_start := 0, speed_multiplier := 1 } 1).length = 0
  ∧ pyRound (Scene.total_duration
        { heap := [], animations := [], current_time := mkRat 9 10
          prev_play_start := 0, speed_multiplier := 1 } * 1) = 1
  ∧ (0 : ℕ) ≠ 1 := by
  refine ⟨by with_unfolding_all decide, by with_unfolding_all decide, by norm_num⟩

/-- C5 witness: the frame-count conjunct at a zero-length scene and the
ordering conjunct at 3 fps. -/
theorem claim_c5_witness :
    ((renderTimes
        { heap := [], animations := [], current_time := 0
          prev_play_start := 0, speed_multiplier := 1 } 3).length
      = ⌊Scene.total_duration
          { heap := [], animations := [], current_time := 0
            prev_play_start := 0, speed_multiplier := 1 } * 3⌋.toNat)
  ∧ (renderTimes
        { heap := [], animations := [], current_time := 0
          prev_play_start := 0, speed_multiplier := 1 } 3).Pairwise (· < ·) :=
  ⟨claim_c5_frame_stream.1
      { heap := [], animations := [], current_time := 0
        prev_play_start := 0, speed_multiplier := 1 } 3 (by simp [Scene.total_duration]),
    claim_c5_frame_stream.2.1
      { heap := [], animations := [], current_time := 0
        prev_play_start := 0, speed_multiplier := 1 } 3 (by decide)⟩

lemma rowChannel_getElem (w : ℕ) (img : ℕ → ℕ → Rgb) (i : ℕ) (ch : Rgb → ℕ) (j : ℕ)
    (h : j < (rowChannel w img i ch).length) :
    (rowChannel w img i ch)[j] = ch (img i j) := by
  have hj : j < w := by simpa [rowChannel] using h
  simp [rowChannel, List.getElem_map, List.getElem_range, hj]

/-- C7 (amended): the chromatic aberration stage shifts the red channel
left and the blue channel right by max(1, round(offset)) columns and
copies the green channel unchanged; the uncovered edge columns are
zero-filled (black), they do not fall back to the source value, because
the result buffer starts as zeros and only the shifted region is
assigned. -/
theorem claim_c7_chromatic :
    (∀ (w : ℕ) (offset : ℚ) (src : ℕ → ℕ → Rgb),
        chromaticStage w offset src = chromaticShift w (max 1 (pyRound offset)).toNat src)
  ∧ (∀ (w off : ℕ) (src : ℕ → ℕ → Rgb) (i : ℕ), 0 < off → off ≤ w →
        rowChannel w (chromaticShift w off src) i Rgb.r
          = (rowChannel w src i Rgb.r).drop off ++ List.replicate off 0)
  ∧ (∀ (w off : ℕ) (src : ℕ → ℕ → Rgb) (i : ℕ),
        rowChannel w (chromaticShift w off src) i Rgb.g = rowChannel w src i Rgb.g)
  ∧ (∀ (w off : ℕ) (src : ℕ → ℕ → Rgb) (i : ℕ), 0 < off → off ≤ w →
        rowChannel w (chromaticShift w off src) i Rgb.b
          = List.replicate off 0 ++ (rowChannel w src i Rgb.b).take (w - off)) := by
  refine ⟨?_, ?_, ?_, ?_⟩
  · intro w offset src
    rfl
  · intro w off src i hpos hle
    refine List.ext_getElem ?_ ?_
    · simp [rowChannel]
      omega
    · intro j h1 h2
      have hj : j < w := by
        simpa [rowChannel] using h1
      have hdl : off ≤ (rowChannel w src i Rgb.r).length := by
        simp [rowChannel]
        omega
      rw [show (rowChannel w (chromaticShift w off src) i Rgb.r)[j]
            = (chromaticShift w off src i j).r by
          simp [rowChannel, List.getElem_map, List.getElem_range, hj]]
      rcases Nat.lt_or_ge j (w - off) with hc | hc
      · rw [List.getElem_append_left
            (show j < ((rowChannel w src i Rgb.r).drop off).length by
              simp [rowChannel]; omega),
          List.getElem_drop,
          rowChannel_getElem w src i Rgb.r (off + j) (by simp [rowChannel]; omega)]
        show (if j + off < w then (src i (j + off)).r else 0) = (src i (off + j)).r
        rw [if_pos (by omega), Nat.add_comm]
      · rw [List.getElem_append_right
            (show ((rowChannel w src i Rgb.r).drop off).length ≤ j by
              simp [rowChannel]; omega),
          List.getElem_replicate]
        show (if j + off < w then (src i (j + off)).r else 0) = 0
        rw [if_neg (by omega)]
  · intro w off src i
    apply List.map_congr_left
    intro j _
    rfl
  · intro w off src i hpos hle
    refine List.ext_getElem ?_ ?_
    · simp [rowChannel]
      omega
    · intro j h1 h2
      have hj : j < w := by
        simpa [rowChannel] using h1
      rw [show (rowChannel w (chromaticShift w off src) i Rgb.b)[j]
            = (chromaticShift w off src i j).b by
          simp [rowChannel, List.getElem_map, List.getElem_range, hj]]
      rcases Nat.lt_or_ge j off with hc | hc
      · rw [List.getElem_append_left
            (show j < (List.replicate off (0 : ℕ)).length by simp; omega),
          List.getElem_replicate]
        show (if off ≤ j ∧ j < w then (src i (j - off)).b else 0) = 0
        rw [if_neg (by omega)]
      · rw [List.getElem_append_right
            (show (List.replicate off (0 : ℕ)).length ≤ j by simp; omega),
          List.getElem_take]
        simp only [List.length_replicate]
        rw [rowChannel_getElem w src i Rgb.b (j - off) (by simp [rowChannel]; omega)]
        show (if off ≤ j ∧ j < w then (src i (j - off)).b else 0) = (src i (j - off)).b
        rw [if_pos ⟨hc, hj⟩]

/-- C7 counterexample: on a 1 x 2 frame with offset 1, the red value of
the rightmost output pixel is 0, not the source pixel red value 40 that
the fallback-to-source claim demands; likewise blue at the left edge is
0, not the source 30. -/
theorem claim_c7_counterexample :
    (chromaticStage 2 1 abProbe 0 1).r = 0
  ∧ (abProbe 0 1).r = 40
  ∧ (chromaticStage 2 1 abProbe 0 0).b = 0
  ∧ (abProbe 0 0).b = 30
  ∧ (0 : ℕ) ≠ 40 := by
  refine ⟨by with_unfolding_all decide, by decide, by with_unfolding_all decide,
    by decide, by decide⟩

/-- C7 witness: the red and blue row laws applied to the 1 x 2 probe
image at offset 1. -/
theorem claim_c7_witness :
    (rowChannel 2 (chromaticShift 2 1 abProbe) 0 Rgb.r
        = (rowChannel 2 abProbe 0 Rgb.r).drop 1 ++ List.replicate 1 0)
  ∧ (rowChannel 2 (chromaticShift 2 1 abProbe) 0 Rgb.b
        = List.replicate 1 0 ++ (rowChannel 2 abProbe 0 Rgb.b).take (2 - 1)) :=
  ⟨claim_c7_chromatic.2.1 2 1 abProbe 0 (by decide) (by decide),
    claim_c7_chromatic.2.2.2 2 1 abProbe 0 (by decide) (by decide)⟩

lemma linear_boundary : linear 0 = 0 ∧ linear 1 = 1 := by
  constructor <;> norm_num [linear]

lemma ease_in_quad_boundary : ease_in_quad 0 = 0 ∧ ease_in_quad 1 = 1 := by
  constructor <;> norm_num [ease_in_quad]

lemma ease_out_quad_boundary : ease_out_quad 0 = 0 ∧ ease_out_quad 1 = 1 := by
  constructor <;> norm_num [ease_out_quad]

lemma ease_in_out_quad_boundary : ease_in_out_quad 0 = 0 ∧ ease_in_out_quad 1 = 1 := by
  constructor
  · rw [ease_in_out_quad, if_pos (by norm_num)]
    norm_num
  · rw [ease_in_out_quad, if_neg (by norm_num)]
    norm_num

lemma ease_in_cubic_boundary : ease_in_cubic 0 = 0 ∧ ease_in_cubic 1 = 1 := by
  constructor <;> norm_num [ease_in_cubic]

lemma ease_out_cubic_boundary : ease_out_cubic 0 = 0 ∧ ease_out_cubic 1 = 1 := by
  constructor <;> norm_num [ease_out_cubic]

lemma ease_in_out_cubic_boundary : ease_in_out_cubic 0 = 0 ∧ ease_in_out_cubic 1 = 1 := by
  constructor
  · rw [ease_in_out_cubic, if_pos (by norm_num)]
    norm_num
  · rw [ease_in_out_cubic, if_neg (by norm_num)]
    norm_num

lemma ease_in_sine_boundary : ease_in_sine 0 = 0 ∧ ease_in_sine 1 = 1 := by
  constructor
  · simp [ease_in_sine]
  · rw [ease_in_sine, one_mul, Real.cos_pi_div_two]
    norm_num

lemma ease_out_sine_boundary : ease_out_sine 0 = 0 ∧ ease_out_sine 1 = 1 := by
  constructor
  · simp [ease_out_sine]
  · rw [ease_out_sine, one_mul, Real.sin_pi_div_two]

lemma ease_in_out_sine_boundary : ease_in_out_sine 0 = 0 ∧ ease_in_out_sine 1 = 1 := by
  constructor
  · simp [ease_in_out_sine]
  · rw [ease_in_out_sine, mul_one, Real.cos_pi]
    norm_num

lemma ease_in_expo_boundary : ease_in_expo 0 = 0 ∧ ease_in_expo 1 = 1 := by
  constructor
  · rw [ease_in_expo, if_pos rfl]
  · rw [ease_in_expo, if_neg (by norm_num),
      show (10 : ℝ) * (1 - 1) = 0 by norm_num, Real.rpow_zero]

lemma ease_out_expo_boundary : ease_out_expo 0 = 0 ∧ ease_out_expo 1 = 1 := by
  constructor
  · rw [ease_out_expo, if_neg (by norm_num),
      show (-10 : ℝ) * 0 = 0 by norm_num, Real.rpow_zero]
    norm_num
  · rw [ease_out_expo, if_pos rfl]

lemma ease_in_out_expo_boundary : ease_in_out_expo 0 = 0 ∧ ease_in_out_expo 1 = 1 := by
  constructor
  · rw [ease_in_out_expo, if_pos rfl]
  · rw [ease_in_out_expo, if_neg (by norm_num), if_pos rfl]

lemma ease_out_back_boundary : ease_out_back 0 = 0 ∧ ease_out_back 1 = 1 := by
  constructor <;> (rw [ease_out_back]; norm_num)

lemma ease_out_elastic_boundary : ease_out_elastic 0 = 0 ∧ ease_out_elastic 1 = 1 := by
  constructor
  · rw [ease_out_elastic, if_pos rfl]
  · rw [ease_out_elastic, if_neg (by norm_num), if_pos rfl]

lemma ease_out_bounce_boundary : ease_out_bounce 0 = 0 ∧ ease_out_bounce 1 = 1 := by
  constructor
  · rw [ease_out_bounce, if_pos (by norm_num)]
    norm_num
  · rw [ease_out_bounce, if_neg (by norm_num), if_neg (by norm_num), if_neg (by norm_num)]
    norm_num

/-- C8: every easing function of the library satisfies f(0) = 0 and
f(1) = 1 exactly over the reals; each is a total real-valued function,
so it is defined and finite on all of [0,1] by construction. -/
theorem claim_c8_easing_boundaries :
    (linear 0 = 0 ∧ linear 1 = 1)
  ∧ (ease_in_quad 0 = 0 ∧ ease_in_quad 1 = 1)
  ∧ (ease_out_quad 0 = 0 ∧ ease_out_quad 1 = 1)
  ∧ (ease_in_out_quad 0 = 0 ∧ ease_in_out_quad 1 = 1)
  ∧ (ease_in_cubic 0 = 0 ∧ ease_in_cubic 1 = 1)
  ∧ (ease_out_cubic 0 = 0 ∧ ease_out_cubic 1 = 1)
  ∧ (ease_in_out_cubic 0 = 0 ∧ ease_in_out_cubic 1 = 1)
  ∧ (ease_in_sine 0 = 0 ∧ ease_in_sine 1 = 1)
  ∧ (ease_out_sine 0 = 0 ∧ ease_out_sine 1 = 1)
  ∧ (ease_in_out_sine 0 = 0 ∧ ease_in_out_sine 1 = 1)
  ∧ (ease_in_expo 0 = 0 ∧ ease_in_expo 1 = 1)
  ∧ (ease_out_expo 0 = 0 ∧ ease_out_expo 1 = 1)
  ∧ (ease_in_out_expo 0 = 0 ∧ ease_in_out_expo 1 = 1)
  ∧ (ease_out_back 0 = 0 ∧ ease_out_back 1 = 1)
  ∧ (ease_out_elastic 0 = 0 ∧ ease_out_elastic 1 = 1)
  ∧ (ease_out_bounce 0 = 0 ∧ ease_out_bounce 1 = 1) :=
  ⟨linear_boundary, ease_in_quad_boundary, ease_out_quad_boundary,
    ease_in_out_quad_boundary, ease_in_cubic_boundary, ease_out_cubic_boundary,
    ease_in_out_cubic_boundary, ease_in_sine_boundary, ease_out_sine_boundary,
    ease_in_out_sine_boundary, ease_in_expo_boundary, ease_out_expo_boundary,
    ease_in_out_expo_boundary, ease_out_back_boundary, ease_out_elastic_boundary,
    ease_out_bounce_boundary⟩
